import Mathlib

set_option allowUnsafeReducibility true

attribute [semireducible] Rat.add Rat.sub Rat.mul Rat.inv Rat.div Rat.ofScientific

/-!
Verification of `latency_monitor.py`: a shallow embedding of the ping-output
parser, the statistics aggregation, the alert policy and the log formatting,
together with proofs of the testable properties stated in the specification.

Modelling conventions:
* Python `float`/`int` values are modelled by `ℚ`/`ℤ` (the inputs exercised by
  the spec are exact decimals, where float and rational arithmetic agree).
* Python string primitives (`strip`, `lower`, `split`, `splitlines`,
  `replace`, substring membership, `float(...)`, `int(...)`) are re-implemented
  over `List Char` by structural recursion so that every definition is
  executable and kernel-reducible.
* `platform.system()` is passed in as an explicit `sys : String` parameter.
* `round(x, 2)` is modelled as exact round-half-to-even on `ℚ`.
-/

namespace LatencyMonitor

/-! ## Character-list string primitives (Python semantics) -/

/-- Does `s` start with `p`? (both as character lists). -/
def startsWithChars : List Char → List Char → Bool
  | [], _ => true
  | _ :: _, [] => false
  | p :: ps, c :: cs => p == c && startsWithChars ps cs

/-- Does `pat` occur as a contiguous substring of `s`?  Models Python
`pat in s`. -/
def hasSubChars (pat : List Char) : List Char → Bool
  | [] => startsWithChars pat []
  | c :: cs => startsWithChars pat (c :: cs) || hasSubChars pat cs

/-- Python `pat in s` on strings. -/
def strHasSub (s pat : String) : Bool := hasSubChars pat.data s.data

/-- Python `s.lower()` (ASCII case folding, as used by the source). -/
def strLower (s : String) : String := ⟨s.data.map Char.toLower⟩

/-- Python `s.strip()`: remove leading and trailing whitespace. -/
def strTrim (s : String) : String :=
  ⟨(((s.data.dropWhile Char.isWhitespace).reverse.dropWhile Char.isWhitespace).reverse)⟩

/-- Python `s.split()` helper: accumulate the current word (reversed) while
scanning; whitespace runs separate words, empty words are dropped. -/
def splitWsAux : List Char → List Char → List (List Char)
  | acc, [] => if acc.isEmpty then [] else [acc.reverse]
  | acc, c :: cs =>
    if c.isWhitespace then
      if acc.isEmpty then splitWsAux [] cs else acc.reverse :: splitWsAux [] cs
    else splitWsAux (c :: acc) cs

/-- Python `s.split()` (split on whitespace runs, no empty items). -/
def pySplitWs (s : String) : List String := (splitWsAux [] s.data).map fun l => ⟨l⟩

/-- Fuel-driven splitter on a non-empty separator; fuel is at least the length
of the remaining text, so the fuel-exhausted branch is never reached. -/
def splitOnAuxF (sep : List Char) : Nat → List Char → List (List Char)
  | 0, l => [l]
  | _ + 1, [] => [[]]
  | fuel + 1, c :: cs =>
    if startsWithChars sep (c :: cs) then
      [] :: splitOnAuxF sep fuel (cs.drop (sep.length - 1))
    else
      match splitOnAuxF sep fuel cs with
      | [] => [[c]]
      | w :: ws => (c :: w) :: ws

/-- Python `s.split(sep)` for a non-empty separator. -/
def pySplitOn (s sep : String) : List String :=
  (splitOnAuxF sep.data (s.data.length + 1) s.data).map fun l => ⟨l⟩

/-- Fuel-driven left-to-right non-overlapping replacement. -/
def replaceAuxF (pat rep : List Char) : Nat → List Char → List Char
  | 0, l => l
  | _ + 1, [] => []
  | fuel + 1, c :: cs =>
    if startsWithChars pat (c :: cs) then
      rep ++ replaceAuxF pat rep fuel (cs.drop (pat.length - 1))
    else c :: replaceAuxF pat rep fuel cs

/-- Python `s.replace(pat, rep)` for a non-empty pattern. -/
def pyReplace (s pat rep : String) : String :=
  ⟨replaceAuxF pat.data rep.data (s.data.length + 1) s.data⟩

/-- Python `s.splitlines()` for `"\n"`-separated text: split on newlines and
drop the trailing empty piece produced by a final newline. -/
def pyLines (s : String) : List String :=
  let ps := pySplitOn s "\n"
  if ps.getLastD "x" = "" then ps.dropLast else ps

/-! ## Numeric literal parsing (Python `int(...)` and `float(...)`) -/

/-- Value of a list of decimal digits. -/
def digitsVal (l : List Char) : ℕ := l.foldl (fun a c => a * 10 + (c.toNat - 48)) 0

/-- Parse a non-empty all-digit string. -/
def natDigits (l : List Char) : Option ℕ :=
  if l.isEmpty then none else if l.all Char.isDigit then some (digitsVal l) else none

/-- Python `int(s)`: optional surrounding whitespace, optional sign, decimal
digits.  (Digit-group underscores are not modelled; no call site produces
them.) -/
def pyInt (s : String) : Option ℤ :=
  match (strTrim s).data with
  | '+' :: ds => (natDigits ds).map fun n => (n : ℤ)
  | '-' :: ds => (natDigits ds).map fun n => -(n : ℤ)
  | ds => (natDigits ds).map fun n => (n : ℤ)

/-- Exponent suffix of a Python float literal: optional sign, then digits. -/
def pyFloatExp (mant : ℚ) (t : List Char) : Option ℚ :=
  let p := match t with
    | '+' :: r => ((1 : ℤ), r)
    | '-' :: r => ((-1 : ℤ), r)
    | r => ((1 : ℤ), r)
  let ed := p.2.takeWhile Char.isDigit
  let rest := p.2.dropWhile Char.isDigit
  if ed.isEmpty then none
  else if rest.isEmpty then
    some (if p.1 = 1 then mant * 10 ^ digitsVal ed else mant / 10 ^ digitsVal ed)
  else none

/-- Python `float(s)` restricted to finite decimal literals: optional
surrounding whitespace, optional sign, `digits[.digits]` or `.digits`,
optional exponent.  (`inf`/`nan` spellings are not modelled; no call site
produces them.) -/
def pyFloat (s : String) : Option ℚ :=
  let l := (strTrim s).data
  let p := match l with
    | '+' :: r => ((1 : ℚ), r)
    | '-' :: r => ((-1 : ℚ), r)
    | r => ((1 : ℚ), r)
  let ip := p.2.takeWhile Char.isDigit
  let r1 := p.2.dropWhile Char.isDigit
  let q := match r1 with
    | '.' :: t => (t.takeWhile Char.isDigit, t.dropWhile Char.isDigit)
    | t => (([] : List Char), t)
  if ip.isEmpty && q.1.isEmpty then none
  else
    let mant : ℚ := p.1 * ((digitsVal ip : ℚ) + (digitsVal q.1 : ℚ) / (10 : ℚ) ^ q.1.length)
    match q.2 with
    | [] => some mant
    | 'e' :: t => pyFloatExp mant t
    | 'E' :: t => pyFloatExp mant t
    | _ => none

/-! ## Rounding and statistics (Python `round(x, 2)` and `statistics`) -/

/-- Python `round(x, 2)`: round to two decimal places, ties to even. -/
def round2 (q : ℚ) : ℚ :=
  let s := q * 100
  let f : ℤ := ⌊s⌋
  let r : ℚ := s - f
  let n : ℤ :=
    if r < 1 / 2 then f
    else if 1 / 2 < r then f + 1
    else if f % 2 = 0 then f else f + 1
  (n : ℚ) / 100

/-- `statistics.mean`: sum divided by length. -/
def pyMean (l : List ℚ) : ℚ := l.sum / (l.length : ℚ)

/-- Insert into a sorted list (ascending). -/
def insertQ (x : ℚ) : List ℚ → List ℚ
  | [] => [x]
  | y :: ys => if x ≤ y then x :: y :: ys else y :: insertQ x ys

/-- Ascending insertion sort, standing in for Python `sorted`. -/
def sortQ (l : List ℚ) : List ℚ := l.foldr insertQ []

/-- `statistics.median`: middle of the sorted data (mean of the two middles
for even length). -/
def pyMedian (l : List ℚ) : ℚ :=
  let s := sortQ l
  let n := l.length
  if n % 2 = 1 then s.getD (n / 2) 0
  else (s.getD (n / 2 - 1) 0 + s.getD (n / 2) 0) / 2

/-- Python `min` of a list (0 on the empty list, which no caller reaches). -/
def listMin : List ℚ → ℚ
  | [] => 0
  | x :: xs => xs.foldl min x

/-- Python `max` of a list (0 on the empty list, which no caller reaches). -/
def listMax : List ℚ → ℚ
  | [] => 0
  | x :: xs => xs.foldl max x

/-! ## The data model: one cycle's aggregate statistics -/

/-- The dictionary returned by `parse_ping_output`: mean/median/min/max are
`None` when no latency sample was parsed; the packet-loss percentage always
carries a number (defaulting to 100.0). -/
structure CycleStats where
  mean : Option ℚ
  median : Option ℚ
  min : Option ℚ
  max : Option ℚ
  packet_loss : ℚ
deriving DecidableEq, Repr

/-! ## Result parser (`parse_ping_output`, lines 73-117 of the source) -/

/-- `[part for part in line.split() if "time=" in part.lower() or "time<" in
part.lower()]`. -/
def timePartsOf (line : String) : List String :=
  (pySplitWs line).filter fun p =>
    strHasSub (strLower p) "time=" || strHasSub (strLower p) "time<"

/-- `time_part[0].split("=")[-1].replace("ms", "").replace("<", "").strip()`. -/
def latencyStrOf (p : String) : String :=
  strTrim (pyReplace (pyReplace ((pySplitOn p "=").getLastD "") "ms" "") "<" "")

/-- The latency sample contributed by one (already stripped) output line:
`some q` when the `"time=" in line.lower()` branch appends `float(...) = q`,
`none` when the branch is not taken or `float` raises. -/
def lineSample (raw : String) : Option ℚ :=
  let line := strTrim raw
  if strHasSub (strLower line) "time=" then
    match timePartsOf line with
    | [] => none
    | p :: _ => pyFloat (latencyStrOf p)
  else none

/-- Unix-style loss line body: `float(line.split("%")[0].split()[-1])`;
`none` models the caught exception (`IndexError` or `ValueError`). -/
def unixLossVal (line : String) : Option ℚ :=
  ((pySplitWs ((pySplitOn line "%").headD "")).getLast?).bind pyFloat

/-- Windows-style loss line body, the two `int(...)` extractions:
`int(line.lower().split("lost =")[1].split(",")[0].strip())` and the same for
`"sent ="`; `none` models a caught `IndexError` or `ValueError`. -/
def winCounts (line : String) : Option (ℤ × ℤ) :=
  let lo := strLower line
  match ((pySplitOn lo "lost =").drop 1).head? with
  | none => none
  | some lossPart =>
    match pyInt ((pySplitOn lossPart ",").headD "") with
    | none => none
    | some lost =>
      match ((pySplitOn lo "sent =").drop 1).head? with
      | none => none
      | some sentPart =>
        match pyInt ((pySplitOn sentPart ",").headD "") with
        | none => none
        | some sent => some (lost, sent)

/-- `packet_loss = (lost / sent) * 100`; `none` when the counts fail to parse
or `sent = 0` raises `ZeroDivisionError` (both caught by the `except`). -/
def winLossVal (line : String) : Option ℚ :=
  match winCounts line with
  | none => none
  | some (lost, sent) =>
    if sent = 0 then none else some ((lost : ℚ) / (sent : ℚ) * 100)

/-- Parser state: the `latencies` list and the current `packet_loss`. -/
abbrev PState := List ℚ × Option ℚ

/-- The Unix packet-loss `if`-block of the loop: guarded by
`system != "Windows" and "packet loss" in line`; on a caught exception the
state is unchanged (`pass`). -/
def unixStep (sys : String) (st : PState) (line : String) : PState :=
  if sys != "Windows" && strHasSub line "packet loss" then
    match unixLossVal line with
    | some v => (st.1, some v)
    | none => st
  else st

/-- The Windows packet-loss `if`-block of the loop: guarded by
`system == "Windows" and "lost =" in line.lower()`; on a caught exception the
state is unchanged (`pass`). -/
def winStep (sys : String) (st : PState) (line : String) : PState :=
  if sys == "Windows" && strHasSub (strLower line) "lost =" then
    match winLossVal line with
    | some v => (st.1, some v)
    | none => st
  else st

/-- Both packet-loss blocks in source order. -/
def procLoss (sys : String) (st : PState) (line : String) : PState :=
  winStep sys (unixStep sys st line) line

/-- One iteration of `for line in output.splitlines()`: strip the line, run
the latency block (a failed `float` hits `continue`, skipping the loss
blocks for this line), then the two loss blocks. -/
def procLine (sys : String) (st : PState) (raw : String) : PState :=
  let line := strTrim raw
  if strHasSub (strLower line) "time=" then
    match timePartsOf line with
    | [] => procLoss sys st line
    | p :: _ =>
      match pyFloat (latencyStrOf p) with
      | some q => procLoss sys (st.1 ++ [q], st.2) line
      | none => st
  else procLoss sys st line

/-- The whole scanning loop of `parse_ping_output`: fold over the lines
starting from `latencies = []`, `packet_loss = None`. -/
def parseLines (sys output : String) : PState :=
  (pyLines output).foldl (procLine sys) ([], none)

/-- The `stats` dictionary built at the end of `parse_ping_output`
(lines 109-115): round everything to 2 decimals, `None` latency fields for an
empty sample list, and a 100.0 default when no loss value was parsed. -/
def aggregate (lats : List ℚ) (pl : Option ℚ) : CycleStats :=
  { mean := if lats.isEmpty then none else some (round2 (pyMean lats))
    median := if lats.isEmpty then none else some (round2 (pyMedian lats))
    min := if lats.isEmpty then none else some (round2 (listMin lats))
    max := if lats.isEmpty then none else some (round2 (listMax lats))
    packet_loss :=
      match pl with
      | some v => round2 v
      | none => 100 }

/-- `parse_ping_output(output)` with `platform.system()` passed explicitly. -/
def parse_ping_output (sys output : String) : CycleStats :=
  aggregate (parseLines sys output).1 (parseLines sys output).2

/-! ## Prober failure path (`run_ping`, lines 60-71) -/

/-- The string `run_ping` returns when `subprocess.run` raises:
`f"Ping command failed: {e}"`. -/
def pingFailMsg (e : String) : String := "Ping command failed: " ++ e

/-! ## Reporter (`log_results`, lines 138-154) -/

/-- Python `str` of a float that is an exact two-decimal value, as produced by
`round(x, 2)`: `repr` prints the shortest decimal expansion, so one of
`d.0`, `d.t` or `d.th`. -/
def render2 (q : ℚ) : String :=
  if q.den = 1 then toString q.num ++ ".0"
  else if (q * 10).den = 1 then
    let m := (q * 10).num
    (if m < 0 then "-" else "") ++ toString (m.natAbs / 10) ++ "." ++ toString (m.natAbs % 10)
  else if (q * 100).den = 1 then
    let m := (q * 100).num
    (if m < 0 then "-" else "") ++ toString (m.natAbs / 100) ++ "." ++
      toString (m.natAbs % 100 / 10) ++ toString (m.natAbs % 10)
  else toString q.num ++ "/" ++ toString q.den

/-- How an optional latency statistic appears inside the f-string: Python
interpolates the value `None` as the text `None`. -/
def optRender : Option ℚ → String
  | none => "None"
  | some q => render2 q

/-- The record line assembled by `log_results` (timestamp supplied by the
caller, `datetime.now().strftime("%Y-%m-%d %H:%M:%S")` in the source). -/
def logLine (ts : String) (st : CycleStats) : String :=
  "[" ++ ts ++ "] Packet Loss: " ++ render2 st.packet_loss ++ "% | " ++
    "Mean: " ++ optRender st.mean ++ " ms | " ++ "Median: " ++ optRender st.median ++ " ms | " ++
    "Min: " ++ optRender st.min ++ " ms | " ++ "Max: " ++ optRender st.max ++ " ms\n"

/-- `log_results`: the appended/printed record line, paired with the alert
decision `stats["packet_loss"] > 0` that guards the `send_email` call. -/
def log_results (ts : String) (st : CycleStats) : String × Bool :=
  (logLine ts st, decide (0 < st.packet_loss))

/-! ## Structural lemmas about the scanning loop -/

/-- The Unix loss block never touches the `latencies` list. -/
theorem unixStep_fst (sys : String) (st : PState) (line : String) :
    (unixStep sys st line).1 = st.1 := by
  unfold unixStep
  split
  · split <;> rfl
  · rfl

/-- The Windows loss block never touches the `latencies` list. -/
theorem winStep_fst (sys : String) (st : PState) (line : String) :
    (winStep sys st line).1 = st.1 := by
  unfold winStep
  split
  · split <;> rfl
  · rfl

/-- Neither loss block touches the `latencies` list. -/
theorem procLoss_fst (sys : String) (st : PState) (line : String) :
    (procLoss sys st line).1 = st.1 := by
  unfold procLoss
  rw [winStep_fst, unixStep_fst]

/-- One loop iteration appends exactly the samples `lineSample` yields for
that line (one or none) to the `latencies` list. -/
theorem procLine_fst (sys : String) (st : PState) (raw : String) :
    (procLine sys st raw).1 = st.1 ++ (lineSample raw).toList := by
  unfold procLine lineSample
  dsimp only
  split
  · split
    · rw [procLoss_fst]
      simp
    · split
      · rw [procLoss_fst]
        simp_all
      · simp_all
  · rw [procLoss_fst]
    simp

/-- Folding the loop body over any list of lines appends exactly the
successfully extracted samples, in order. -/
theorem foldl_procLine_fst (sys : String) :
    ∀ (lines : List String) (st : PState),
      (lines.foldl (procLine sys) st).1 = st.1 ++ lines.filterMap lineSample := by
  intro lines
  induction lines with
  | nil => intro st; simp
  | cons x xs ih =>
    intro st
    rw [List.foldl_cons, ih, List.filterMap_cons, procLine_fst]
    cases hx : lineSample x <;> simp [hx]

/-- Length of a `filterMap` equals the count of elements on which the
function succeeds. -/
theorem length_filterMap_eq_countP {α β : Type} (f : α → Option β) :
    ∀ l : List α, (l.filterMap f).length = l.countP fun a => (f a).isSome := by
  intro l
  induction l with
  | nil => rfl
  | cons x xs ih =>
    rw [List.filterMap_cons, List.countP_cons]
    cases hx : f x <;> simp [hx, ih]

/-! ## Claim theorems -/

/-- C1. For every statistics value passed to the Reporter, the email-alert
branch of `log_results` is taken if and only if the packet-loss percentage is
strictly greater than zero; at the boundary, loss 0 produces no notification
and loss 0.01 produces one. -/
theorem alert_iff_loss_pos (ts : String) (st : CycleStats) :
    ((log_results ts st).2 = true ↔ 0 < st.packet_loss) ∧
      (log_results ts ⟨none, none, none, none, 0⟩).2 = false ∧
      (log_results ts ⟨none, none, none, none, 0.01⟩).2 = true := by
  refine ⟨?_, rfl, ?_⟩
  · simp [log_results]
  · simp [log_results]
    decide

/-- C2. The `latencies` list built by `parse_ping_output` has exactly one
entry per line whose round-trip-time extraction succeeds: for output with
`k` such lines, exactly `k` samples are extracted, and a line whose time
value fails to parse contributes no sample and does not abort the scan. -/
theorem parser_sample_count (sys output : String) :
    (parseLines sys output).1.length =
        (pyLines output).countP (fun raw => (lineSample raw).isSome) ∧
      ∀ raw, lineSample raw = none → ∀ st : PState, (procLine sys st raw).1 = st.1 := by
  constructor
  · unfold parseLines
    rw [foldl_procLine_fst]
    simp [length_filterMap_eq_countP]
  · intro raw hraw st
    rw [procLine_fst, hraw]
    simp

/-- C10. A line containing `time<` but not `time=` fails the line-selection
test (`"time=" in line.lower()`), so no latency sample is extracted from it:
the sub-millisecond qualifier is dropped, not stripped and parsed. -/
theorem timeless_line_no_sample (raw : String)
    (h1 : strHasSub (strLower (strTrim raw)) "time<" = true)
    (h2 : strHasSub (strLower (strTrim raw)) "time=" = false) :
    lineSample raw = none ∧ ∀ (sys : String) (st : PState), (procLine sys st raw).1 = st.1 := by
  have hs : lineSample raw = none := by
    unfold lineSample
    simp [h2]
  refine ⟨hs, fun sys st => ?_⟩
  rw [procLine_fst, hs]
  simp

/-- Witness for C10 at a genuine Windows sub-millisecond reply line. -/
theorem timeless_line_no_sample_witness :
    lineSample "Reply from 8.8.8.8: bytes=32 time<1ms TTL=117" = none :=
  (timeless_line_no_sample "Reply from 8.8.8.8: bytes=32 time<1ms TTL=117"
    (by decide) (by decide)).1

/-- C3. When zero latency lines parse successfully, all four latency
statistics are `None`; the loss percentage defaults to exactly 100.0 when no
loss-summary value was parsed, while an explicitly parsed value `v` overrides
the default (as `round(v, 2)`). -/
theorem empty_samples_stats (sys output : String)
    (h : (parseLines sys output).1 = []) :
    (parse_ping_output sys output).mean = none ∧
      (parse_ping_output sys output).median = none ∧
      (parse_ping_output sys output).min = none ∧
      (parse_ping_output sys output).max = none ∧
      ((parseLines sys output).2 = none → (parse_ping_output sys output).packet_loss = 100) ∧
      ∀ v, (parseLines sys output).2 = some v →
        (parse_ping_output sys output).packet_loss = round2 v := by
  unfold parse_ping_output aggregate
  rw [h]
  refine ⟨rfl, rfl, rfl, rfl, fun h2 => ?_, fun v h2 => ?_⟩ <;> rw [h2]

/-- Witness for C3 on garbage output that yields no samples and no loss
line. -/
theorem empty_samples_stats_witness :
    (parse_ping_output "Darwin" "Request timeout for icmp_seq 0").mean = none ∧
      (parse_ping_output "Darwin" "Request timeout for icmp_seq 0").packet_loss = 100 := by
  have h := empty_samples_stats "Darwin" "Request timeout for icmp_seq 0" (by decide)
  exact ⟨h.1, h.2.2.2.2.1 (by decide)⟩

/-- Counterexample to C4 as stated: a partial output holding one good time
line and no loss-summary line gets the 100.0 default loss while `mean` is
present, so 100% loss does not imply absent latency fields. -/
theorem loss100_with_latency_cex :
    (parse_ping_output "Linux" "64 bytes from 8.8.8.8: icmp_seq=1 ttl=117 time=10.0 ms").packet_loss
        = 100 ∧
      (parse_ping_output "Linux" "64 bytes from 8.8.8.8: icmp_seq=1 ttl=117 time=10.0 ms").mean
        = some 10 := by
  constructor <;> decide

/-- C4 (amended). The latency fields of the result are absent exactly when
zero latency samples were parsed; carrying 100% loss does not by itself force
them absent, because a missing loss-summary line defaults to 100.0 even when
samples are present. -/
theorem latency_fields_absent_iff (sys output : String) :
    ((parse_ping_output sys output).mean = none ∧
        (parse_ping_output sys output).median = none ∧
        (parse_ping_output sys output).min = none ∧
        (parse_ping_output sys output).max = none) ↔
      (parseLines sys output).1 = [] := by
  unfold parse_ping_output aggregate
  cases h : (parseLines sys output).1 <;> simp [h]

/-- Round-half-to-even to two decimals stays inside `[0, 100]` whenever its
argument does. -/
theorem round2_mem (q : ℚ) (h0 : 0 ≤ q) (h1 : q ≤ 100) :
    0 ≤ round2 q ∧ round2 q ≤ 100 := by
  unfold round2
  set s : ℚ := q * 100 with hs
  have hs0 : 0 ≤ s := by positivity
  have hs1 : s ≤ 10000 := by rw [hs]; linarith
  have hf0 : 0 ≤ ⌊s⌋ := Int.floor_nonneg.mpr hs0
  have hfle : (⌊s⌋ : ℚ) ≤ s := Int.floor_le s
  have hup : ⌊s⌋ ≤ 10000 := by
    rw [show (10000 : ℤ) = ⌊(10000 : ℚ)⌋ by norm_num]
    exact Int.floor_le_floor hs1
  set n : ℤ :=
    if s - ⌊s⌋ < 1 / 2 then ⌊s⌋
    else if 1 / 2 < s - ⌊s⌋ then ⌊s⌋ + 1
    else if ⌊s⌋ % 2 = 0 then ⌊s⌋ else ⌊s⌋ + 1 with hn
  have hramp : ¬(s - ⌊s⌋ < 1 / 2) → ⌊s⌋ + 1 ≤ 10000 := by
    intro hr
    push_neg at hr
    have : (⌊s⌋ : ℚ) ≤ 10000 - 1 / 2 := by linarith
    have : ⌊s⌋ ≤ 9999 := by
      by_contra hc
      push_neg at hc
      have : (10000 : ℚ) ≤ (⌊s⌋ : ℚ) := by exact_mod_cast hc
      linarith
    omega
  have hn0 : 0 ≤ n := by
    rw [hn]
    split
    · exact hf0
    · split
      · omega
      · split <;> omega
  have hn1 : n ≤ 10000 := by
    rw [hn]
    split
    · exact hup
    · rename_i hr
      split
      · exact hramp hr
      · split
        · exact hup
        · exact hramp hr
  constructor
  · positivity
  · rw [div_le_iff₀ (by norm_num : (0:ℚ) < 100)]
    calc (n : ℚ) ≤ 10000 := by exact_mod_cast hn1
    _ = 100 * 100 := by norm_num

/-- Counterexample to C9 as stated: a malformed Unix loss line claiming 200%
loss is taken at face value, so the returned loss percentage can leave
`[0, 100]`. -/
theorem loss_out_of_range_cex :
    (parse_ping_output "Linux" "200% packet loss").packet_loss = 200 ∧
      ¬(parse_ping_output "Linux" "200% packet loss").packet_loss ≤ 100 := by
  constructor <;> decide

/-- C9 (amended). The returned loss percentage lies in `[0, 100]` whenever no
loss-summary value was parsed (the 100.0 default) or the parsed value itself
lies in `[0, 100]`; a malformed summary line parsed to an out-of-range value
is passed through. -/
theorem loss_in_range (sys output : String)
    (h : (parseLines sys output).2 = none ∨
      ∃ v, (parseLines sys output).2 = some v ∧ 0 ≤ v ∧ v ≤ 100) :
    0 ≤ (parse_ping_output sys output).packet_loss ∧
      (parse_ping_output sys output).packet_loss ≤ 100 := by
  unfold parse_ping_output aggregate
  rcases h with h | ⟨v, hv, h0, h1⟩
  · rw [h]
    norm_num
  · rw [hv]
    exact round2_mem v h0 h1

/-- Witness for C9 at an output whose loss line parses to 0. -/
theorem loss_in_range_witness :
    0 ≤ (parse_ping_output "Linux" "0% packet loss").packet_loss ∧
      (parse_ping_output "Linux" "0% packet loss").packet_loss ≤ 100 :=
  loss_in_range "Linux" "0% packet loss"
    (Or.inr ⟨0, by decide, by norm_num, by norm_num⟩)

/-- C5. Whenever a loss-summary line yields Windows-style counts `lost = L`
and `sent = S` with `S > 0`, the returned loss percentage is exactly
`round(L / S * 100, 2)`. -/
theorem windows_counts_loss (output raw : String) (L S : ℤ)
    (hl : pyLines output = [raw])
    (ht : strHasSub (strLower (strTrim raw)) "time=" = false)
    (hg : strHasSub (strLower (strTrim raw)) "lost =" = true)
    (hc : winCounts (strTrim raw) = some (L, S))
    (hS : 0 < S) :
    (parse_ping_output "Windows" output).packet_loss = round2 ((L : ℚ) / (S : ℚ) * 100) := by
  have hstate : parseLines "Windows" output = ([], some ((L : ℚ) / (S : ℚ) * 100)) := by
    unfold parseLines
    rw [hl]
    simp only [List.foldl_cons, List.foldl_nil]
    unfold procLine procLoss unixStep winStep winLossVal
    simp [ht, hg, hc, hS.ne']
  unfold parse_ping_output aggregate
  rw [hstate]

/-- Witness for C5 at a line whose counts parse as `lost = 1`, `sent = 4`. -/
theorem windows_counts_loss_witness :
    (parse_ping_output "Windows" "Packets: Sent = 4, Lost = 1, Received = 3").packet_loss =
      round2 ((1 : ℚ) / (4 : ℚ) * 100) :=
  windows_counts_loss "Packets: Sent = 4, Lost = 1, Received = 3"
    "Packets: Sent = 4, Lost = 1, Received = 3" 1 4
    (by decide) (by decide) (by decide) (by decide) (by norm_num)

/-- Scenario 1 of the specification: five time lines and a 0%-loss line. -/
def scenario1 : String :=
  "time=10.0 ms\ntime=12.5 ms\ntime=11.0 ms\ntime=9.5 ms\ntime=14.0 ms\n0% packet loss\n"

/-- C6. On a non-empty sample list the aggregation publishes mean, median,
min and max each rounded to two decimal places; concretely, scenario 1's
output (times 10.0, 12.5, 11.0, 9.5, 14.0 and a 0% loss line) yields
mean 11.4, median 11.0, min 9.5, max 14.0, loss 0.0, and no notification. -/
theorem aggregate_rounds (lats : List ℚ) (pl : Option ℚ) (h : lats ≠ []) :
    (aggregate lats pl).mean = some (round2 (pyMean lats)) ∧
      (aggregate lats pl).median = some (round2 (pyMedian lats)) ∧
      (aggregate lats pl).min = some (round2 (listMin lats)) ∧
      (aggregate lats pl).max = some (round2 (listMax lats)) ∧
      parse_ping_output "Linux" scenario1 = ⟨some 11.4, some 11.0, some 9.5, some 14.0, 0⟩ ∧
      (log_results "2025-01-02 03:04:05" (parse_ping_output "Linux" scenario1)).2 = false := by
  have hne : lats.isEmpty = false := by simp [h]
  unfold aggregate
  exact ⟨by simp [hne], by simp [hne], by simp [hne], by simp [hne], by decide, by decide⟩

/-- Witness for C6 at a one-sample list. -/
theorem aggregate_rounds_witness :
    (aggregate [10] none).mean = some (round2 (pyMean [10])) ∧
      (aggregate [10] none).median = some (round2 (pyMedian [10])) :=
  ⟨(aggregate_rounds [10] none (by decide)).1, (aggregate_rounds [10] none (by decide)).2.1⟩

/-- A line none of whose guard substrings occur leaves the parser state
untouched. -/
theorem procLine_inert (sys : String) (st : PState) (raw : String)
    (h1 : strHasSub (strLower (strTrim raw)) "time=" = false)
    (h2 : strHasSub (strTrim raw) "packet loss" = false)
    (h3 : strHasSub (strLower (strTrim raw)) "lost =" = false) :
    procLine sys st raw = st := by
  unfold procLine procLoss unixStep winStep
  simp [h1, h2, h3]

/-- C7. When `subprocess.run` raises, `run_ping` returns the error text
`"Ping command failed: ..."`; as long as that text contains none of the
parser's marker substrings, parsing it yields zero samples and the 100.0%
default loss, the Reporter still produces a (non-empty) record line for the
cycle, and the notification branch is taken — the failure is never fatal. -/
theorem ping_failure_degrades (sys e ts : String)
    (h : ∀ raw ∈ pyLines (pingFailMsg e),
      strHasSub (strLower (strTrim raw)) "time=" = false ∧
        strHasSub (strTrim raw) "packet loss" = false ∧
        strHasSub (strLower (strTrim raw)) "lost =" = false) :
    parseLines sys (pingFailMsg e) = ([], none) ∧
      parse_ping_output sys (pingFailMsg e) = ⟨none, none, none, none, 100⟩ ∧
      (log_results ts (parse_ping_output sys (pingFailMsg e))).2 = true ∧
      (log_results ts (parse_ping_output sys (pingFailMsg e))).1 ≠ "" := by
  have hfold : ∀ (lines : List String) (st : PState),
      (∀ raw ∈ lines,
        strHasSub (strLower (strTrim raw)) "time=" = false ∧
          strHasSub (strTrim raw) "packet loss" = false ∧
          strHasSub (strLower (strTrim raw)) "lost =" = false) →
      lines.foldl (procLine sys) st = st := by
    intro lines
    induction lines with
    | nil => intro st _; rfl
    | cons x xs ih =>
      intro st hx
      rw [List.foldl_cons,
        procLine_inert sys st x (hx x (by simp)).1 (hx x (by simp)).2.1 (hx x (by simp)).2.2,
        ih st fun raw hr => hx raw (by simp [hr])]
  have hpl : parseLines sys (pingFailMsg e) = ([], none) := hfold _ _ h
  have hst : parse_ping_output sys (pingFailMsg e) = ⟨none, none, none, none, 100⟩ := by
    unfold parse_ping_output aggregate
    rw [hpl]
    rfl
  refine ⟨hpl, hst, by rw [hst]; rfl, ?_⟩
  rw [hst]
  intro hc
  have hd := congrArg String.data hc
  rw [show (log_results ts ⟨none, none, none, none, 100⟩).1 =
      "[" ++ (ts ++ ("] Packet Loss: 100.0% | Mean: None ms | " ++
        "Median: None ms | Min: None ms | Max: None ms\n")) by
    simp [log_results, logLine, String.append_assoc]
    rfl] at hd
  rw [String.data_append, String.data_append] at hd
  exact List.cons_ne_nil '[' _ hd

/-- Witness for C7 at a realistic spawn-failure message. -/
theorem ping_failure_degrades_witness :
    parseLines "Linux" (pingFailMsg "No such file or directory") = ([], none) ∧
      parse_ping_output "Linux" (pingFailMsg "No such file or directory") =
        ⟨none, none, none, none, 100⟩ :=
  have h := ping_failure_degrades "Linux" "No such file or directory"
    "2025-01-02 03:04:05" (by decide)
  ⟨h.1, h.2.1⟩

/-- Counterexample to C8 as stated: an absent latency field is rendered by
the f-string as Python's `None`, and the placeholder `unavailable` appears
nowhere in the record line. -/
theorem log_line_placeholder_cex :
    strHasSub (logLine "2025-01-02 03:04:05" ⟨none, none, none, none, 100⟩) "unavailable"
        = false ∧
      strHasSub (logLine "2025-01-02 03:04:05" ⟨none, none, none, none, 100⟩) "Mean: None ms"
        = true := by
  constructor <;> decide

/-- C8 (amended). The record line has the form
`[<ts>] Packet Loss: <pct>% | Mean: <v> ms | Median: <v> ms | Min: <v> ms |
Max: <v> ms` followed by a newline, and each absent latency field is rendered
with the placeholder `None` (Python's interpolation of the value `None`),
not `unavailable`. -/
theorem log_line_format (ts : String) (st : CycleStats) :
    logLine ts st =
        "[" ++ ts ++ "] Packet Loss: " ++ render2 st.packet_loss ++ "% | " ++
          "Mean: " ++ optRender st.mean ++ " ms | " ++ "Median: " ++ optRender st.median ++
          " ms | " ++ "Min: " ++ optRender st.min ++ " ms | " ++ "Max: " ++ optRender st.max ++
          " ms\n" ∧
      optRender none = "None" ∧ (∀ q, optRender (some q) = render2 q) ∧
      logLine "2025-01-02 03:04:05" ⟨some 11.4, some 11.0, some 9.5, some 14.0, 0⟩ =
        "[2025-01-02 03:04:05] Packet Loss: 0.0% | Mean: 11.4 ms | " ++
          "Median: 11.0 ms | Min: 9.5 ms | Max: 14.0 ms\n" ∧
      logLine "2025-01-02 03:04:05" ⟨none, none, none, none, 100⟩ =
        "[2025-01-02 03:04:05] Packet Loss: 100.0% | Mean: None ms | " ++
          "Median: None ms | Min: None ms | Max: None ms\n" :=
  ⟨rfl, rfl, fun _ => rfl, by decide, by decide⟩

end LatencyMonitor
